import Mathlib

/-!
Verification development for the acquired-bookshelf episode-ingestion and
book-extraction pipeline.

The definitions below are shallow embeddings of the TypeScript sources:

* `src/lib/url-validator.ts` (class `URLValidator`): URL validation and the
  `safeFetch` wrapper.
* `src/lib/url-validator.ts` (class `RSSMonitor`, bundled in the same source
  file): the RSS pending-episode queue, classification at enqueue time, and
  the requeue/abandon state machine.
* `src/scripts/optimized-scraper.ts` (class `OptimizedScraper`): the
  orchestrator's episode dedup, the book validation gate, and the catalog
  merge `updateBooksDatabase`.
* `src/lib/openLibrary.ts` (`getBookMetadata`): the tiered metadata resolver.

JavaScript strings are modelled as Lean `String`; machine numbers
(timestamps, ports, retry counts) as `Nat`/`Int`; `null`/`undefined` as
`Option`; thrown exceptions as `Except String`; network responses as
explicit environment parameters.  URL parsing (`new URL`) is abstracted as a
`String → Except String ParsedUrl` parameter, matching the fact that the
source only consumes the parsed fields and catches parse exceptions.
-/

/-- Model of `String.prototype.toLowerCase` (ASCII range, which covers every
constant the validator compares against). -/
def toLowerStr (s : String) : String := ⟨s.data.map Char.toLower⟩

/-- Substring containment on character lists: does `pat` occur as a
contiguous infix of `s`? -/
def isInfixOfCL : List Char → List Char → Bool
  | pat, [] => pat.isEmpty
  | pat, s@(_ :: t) => pat.isPrefixOf s || isInfixOfCL pat t

/-- Model of `String.prototype.includes`. -/
def strIncludes (s pat : String) : Bool := isInfixOfCL pat.data s.data

/-- Model of `String.prototype.startsWith`. -/
def strStartsWith (s pat : String) : Bool := pat.data.isPrefixOf s.data

/-- Model of `String.prototype.endsWith`. -/
def strEndsWith (s pat : String) : Bool := pat.data.isSuffixOf s.data

/-- JavaScript truthiness of a possibly-absent string (`undefined`, `null`
and `""` are falsy). -/
def optStrTruthy : Option String → Bool
  | some s => s != ""
  | none => false

/-- One or more ASCII digits: the `\d+` regex atom. -/
def isDigitsCL (l : List Char) : Bool := !l.isEmpty && l.all Char.isDigit

/-- Split a character list on a separator character (used to model the
anchored dotted-quad regexes of `isPrivateIP`). -/
def splitChar (c : Char) : List Char → List (List Char)
  | [] => [[]]
  | x :: t =>
    let r := splitChar c t
    if x == c then [] :: r
    else
      match r with
      | h :: rest => (x :: h) :: rest
      | [] => [[x]]

/-- Numeric value of exactly two ASCII digits, `none` otherwise. -/
def twoDigitVal : List Char → Option Nat
  | [c1, c2] =>
    if c1.isDigit && c2.isDigit then some ((c1.toNat - 48) * 10 + (c2.toNat - 48))
    else none
  | _ => none

/-- The `(1[6-9]|2\d|3[01])` alternation of the 172.16/12 regex: exactly a
two-digit octet whose value is between 16 and 31. -/
def isOctet16To31 (l : List Char) : Bool :=
  match twoDigitVal l with
  | some n => decide (16 ≤ n) && decide (n ≤ 31)
  | none => false

/-- `ALLOWED_DOMAINS` from `url-validator.ts`. -/
def ALLOWED_DOMAINS : List String :=
  ["www.acquired.fm", "docs.google.com", "openlibrary.org", "amazon.com",
   "www.amazon.com", "images-na.ssl-images-amazon.com", "m.media-amazon.com",
   "feeds.transistor.fm", "covers.openlibrary.org"]

/-- `ALLOWED_PROTOCOLS` from `url-validator.ts`. -/
def ALLOWED_PROTOCOLS : List String := ["http:", "https:"]

/-- `BLOCKED_DOMAINS` from `url-validator.ts`. -/
def BLOCKED_DOMAINS : List String :=
  ["localhost", "127.0.0.1", "0.0.0.0", "::1", "metadata.google.internal",
   "169.254.169.254"]

/-- The parsed-URL record: the fields of a WHATWG `URL` object that
`URLValidator` reads (`protocol`, `hostname`, `port`, `pathname`, `search`,
`searchParams`, `hash`).  An empty JS `port` string is modelled as `none`. -/
structure ParsedUrl where
  protocol : String
  hostname : String
  port : Option Nat
  pathname : String
  search : String
  searchParams : List (String × String)
  hash : String
deriving DecidableEq, Repr

/-- `ValidationResult` from `url-validator.ts`. -/
structure ValidationResult where
  isValid : Bool
  sanitizedUrl : Option ParsedUrl := none
  error : Option String := none
  warnings : List String
deriving DecidableEq, Repr

/-- `URLValidator.isPrivateIP`: the four anchored dotted-quad regexes for
10.0.0.0/8, 172.16.0.0/12, 192.168.0.0/16 and 127.0.0.0/8. -/
def isPrivateIP (hostname : String) : Bool :=
  match splitChar '.' hostname.data with
  | [a, b, c, d] =>
    (a == "10".data && isDigitsCL b && isDigitsCL c && isDigitsCL d) ||
    (a == "172".data && isOctet16To31 b && isDigitsCL c && isDigitsCL d) ||
    (a == "192".data && b == "168".data && isDigitsCL c && isDigitsCL d) ||
    (a == "127".data && isDigitsCL b && isDigitsCL c && isDigitsCL d)
  | _ => false

/-- `URLValidator.isBlockedDomain`. -/
def isBlockedDomain (hostname : String) : Bool :=
  BLOCKED_DOMAINS.contains hostname ||
  isPrivateIP hostname ||
  strStartsWith hostname "localhost" ||
  strEndsWith hostname ".local"

/-- `URLValidator.isAllowedDomain`: exact match or subdomain match against
the allowlist. -/
def isAllowedDomain (hostname : String) : Bool :=
  ALLOWED_DOMAINS.contains hostname ||
  ALLOWED_DOMAINS.any (fun allowedDomain => strEndsWith hostname ("." ++ allowedDomain))

/-- `URLValidator.isDangerousPort`. -/
def isDangerousPort (port : Nat) : Bool :=
  [22, 23, 25, 53, 135, 139, 445, 993, 995, 1433, 3306, 3389, 5432, 6379,
   8080, 9200].contains port ||
  decide (port < 80) || decide (65535 < port)

/-- Matcher for the `/\/api\/v[0-9]+\/internal/` regex at one position:
the list starts with `/api/v`, then one or more digits, then `/internal`. -/
def apiInternalAt (l : List Char) : Bool :=
  if "/api/v".data.isPrefixOf l then
    let rest := l.drop 6
    !(rest.takeWhile Char.isDigit).isEmpty &&
      "/internal".data.isPrefixOf (rest.dropWhile Char.isDigit)
  else false

/-- Run a matcher at every suffix position (an unanchored regex search). -/
def anyTailHolds (p : List Char → Bool) : List Char → Bool
  | [] => p []
  | c :: t => p (c :: t) || anyTailHolds p t

/-- Occurrence of the internal-API path pattern anywhere in the path. -/
def hasApiInternal (s : String) : Bool := anyTailHolds apiInternalAt s.data

/-- `URLValidator.isValidPath`. -/
def isValidPath (hostname pathname : String) : Bool :=
  if hostname == "docs.google.com" then
    strStartsWith pathname "/document/" ||
    strStartsWith pathname "/spreadsheets/" ||
    strStartsWith pathname "/presentation/"
  else if strIncludes hostname "amazon.com" then
    strIncludes pathname "/dp/" ||
    strStartsWith pathname "/gp/" ||
    strStartsWith pathname "/images/" ||
    strStartsWith pathname "/s?" ||
    strIncludes pathname "/B0"
  else if hostname == "openlibrary.org" then
    strStartsWith pathname "/api/" ||
    strStartsWith pathname "/search/" ||
    strStartsWith pathname "/works/" ||
    strStartsWith pathname "/books/"
  else
    !(strIncludes pathname "/.." ||
      strIncludes pathname "/etc/" ||
      strIncludes pathname "/proc/" ||
      strIncludes pathname "/admin" ||
      hasApiInternal pathname)

/-- `URLValidator.checkSuspiciousPatterns`: the warnings pushed, in push
order.  The source re-parses the URL inside a `try`; a parse failure adds
nothing (the `catch` is empty). -/
def checkSuspiciousPatterns (parse : String → Except String ParsedUrl)
    (url : String) : List String :=
  (if strIncludes url "%2e%2e" || strIncludes url "%2f%2f" then
    ["URL contains suspicious encoding patterns"] else []) ++
  (if url.data.any (fun c => 127 < c.toNat) then
    ["URL contains non-ASCII characters"] else []) ++
  (match parse url with
   | .ok parsed =>
     (if 500 < parsed.pathname.length then ["URL path is unusually long"] else []) ++
     (if 1000 < parsed.search.length then ["URL query string is unusually long"] else [])
   | .error _ => [])

/-- `URLSearchParams.set`: replace the first entry with the given name (and
drop later duplicates), or append. -/
def paramsSet : List (String × String) → String → String → List (String × String)
  | [], k, v => [(k, v)]
  | (k', v') :: rest, k, v =>
    if k' == k then (k, v) :: rest.filter (fun kv => kv.1 != k)
    else (k', v') :: paramsSet rest k v

/-- Serialization of query parameters (`URLSearchParams.toString`,
percent-encoding abstracted away; no claim depends on this string). -/
def serializeParams (ps : List (String × String)) : String :=
  String.intercalate "&" (ps.map (fun kv => kv.1 ++ "=" ++ kv.2))

/-- `URLValidator.sanitizeUrl`: drop the fragment; for the document host
keep only the allowlisted query parameters; for the marketplace host drop
the tracking parameters. -/
def sanitizeUrl (parsedUrl : ParsedUrl) : ParsedUrl :=
  let u1 := { parsedUrl with hash := "" }
  let u2 :=
    if u1.hostname == "docs.google.com" then
      let allowedParams := ["id", "format", "export"]
      let newSearchParams := u1.searchParams.foldl
        (fun acc kv => if allowedParams.contains kv.1 then paramsSet acc kv.1 kv.2 else acc) []
      { u1 with searchParams := newSearchParams, search := serializeParams newSearchParams }
    else u1
  if strIncludes u2.hostname "amazon.com" then
    let trackingParams := ["ref", "tag", "linkCode", "camp", "creative", "creativeASIN"]
    let kept := u2.searchParams.filter (fun kv => !trackingParams.contains kv.1)
    { u2 with searchParams := kept, search := serializeParams kept }
  else u2

/-- `URLValidator.validateUrl`.  `parse` abstracts `new URL(url)`; a thrown
parse exception is an `Except.error` carrying the exception message.  Every
early return happens before any warning is pushed, so invalid results carry
an empty warning list, exactly as in the source. -/
def validateUrl (parse : String → Except String ParsedUrl) (url : String) :
    ValidationResult :=
  match parse url with
  | .error msg =>
    { isValid := false, error := some ("Invalid URL format: " ++ msg), warnings := [] }
  | .ok parsedUrl =>
    if !ALLOWED_PROTOCOLS.contains parsedUrl.protocol then
      { isValid := false, error := some ("Protocol not allowed: " ++ parsedUrl.protocol),
        warnings := [] }
    else
      let hostname := toLowerStr parsedUrl.hostname
      if isBlockedDomain hostname then
        { isValid := false, error := some ("Domain is blocked: " ++ hostname),
          warnings := [] }
      else if !isAllowedDomain hostname then
        { isValid := false, error := some ("Domain not in allowlist: " ++ hostname),
          warnings := [] }
      else if (match parsedUrl.port with
               | some p => isDangerousPort p
               | none => false) then
        { isValid := false,
          error := some ("Dangerous port detected: " ++
            (match parsedUrl.port with | some p => toString p | none => "")),
          warnings := [] }
      else if !isValidPath hostname parsedUrl.pathname then
        { isValid := false,
          error := some ("Invalid path for domain " ++ hostname ++ ": " ++ parsedUrl.pathname),
          warnings := [] }
      else
        let warnings :=
          (if 2048 < url.length then ["URL is unusually long"] else []) ++
          checkSuspiciousPatterns parse url
        { isValid := true, sanitizedUrl := some (sanitizeUrl parsedUrl),
          error := none, warnings := warnings }

/-- `URLValidator.safeFetch`, with its observable effects made explicit:
the first component is the returned response or the thrown error message,
the second component lists the URLs actually passed to `fetch` (so `[]`
means no network request was issued).  `fetchFn` abstracts the network; the
JS `validation.error` interpolation renders a missing message as
`"undefined"`. -/
def safeFetch {ρ : Type} (parse : String → Except String ParsedUrl)
    (fetchFn : ParsedUrl → ρ) (url : String) : Except String ρ × List ParsedUrl :=
  let validation := validateUrl parse url
  if !validation.isValid then
    (.error ("URL validation failed: " ++ validation.error.getD "undefined"), [])
  else
    match validation.sanitizedUrl with
    | some safeUrl => (.ok (fetchFn safeUrl), [safeUrl])
    | none => (.error "URL validation failed: undefined", [])

/-- `EpisodeType` from the `RSSMonitor` module. -/
inductive EpisodeType where
  | regular
  | interview
  | special
  | unknown
deriving DecidableEq, Repr

/-- `RSSEpisode`: one parsed feed item.  Timestamps are epoch milliseconds
modelled as `Int`. -/
structure RSSEpisode where
  id : String
  title : String
  link : String
  pubDate : Int
  guid : String
  description : String
deriving DecidableEq, Repr

/-- `EpisodeProcessing`: one durable record of the pending-episodes queue. -/
structure EpisodeProcessing where
  episode : RSSEpisode
  detectedAt : Int
  processAfter : Int
  retryCount : Nat
  hasGoogleDoc : Option Bool := none
  episodeType : Option EpisodeType := none
deriving DecidableEq, Repr

/-- The monitor's persisted state: the contents of `pending-episodes.json`
and of `last-rss-check.json`. -/
structure MonitorState where
  pendingEpisodes : List EpisodeProcessing
  lastCheck : Int
deriving DecidableEq, Repr

/-- `RSSMonitor.classifyEpisode`: keyword classification of a title. -/
def classifyEpisode (title : String) : EpisodeType :=
  let lowerTitle := toLowerStr title
  if strIncludes lowerTitle "interview" then EpisodeType.interview
  else if strIncludes lowerTitle "holiday special" ||
          strIncludes lowerTitle "acquired live" ||
          strIncludes lowerTitle "special episode" then EpisodeType.special
  else EpisodeType.regular

/-- `RSSMonitor.getProcessingDelay` (milliseconds; `-1` is the skip flag). -/
def getProcessingDelay (episode : RSSEpisode) (retryCount : Nat) : Int :=
  let episodeType := classifyEpisode episode.title
  if episodeType == EpisodeType.interview && 0 < retryCount then -1
  else if retryCount == 0 then 0
  else 2 * 60 * 60 * 1000

/-- `RSSMonitor.queueEpisodesForProcessing`: map each new episode to a fresh
queue record, skipping interview episodes (the source maps to `null` and
filters the nulls out, i.e. a `filterMap`). -/
def queueEpisodesForProcessing (episodes : List RSSEpisode) (now : Int) :
    List EpisodeProcessing :=
  episodes.filterMap (fun episode =>
    let episodeType := classifyEpisode episode.title
    let delay := getProcessingDelay episode 0
    if episodeType == EpisodeType.interview then none
    else some
      { episode := episode, detectedAt := now, processAfter := now + delay,
        retryCount := 0, hasGoogleDoc := none, episodeType := some episodeType })

/-- `RSSMonitor.checkForNewEpisodes` on a successfully fetched and parsed
feed: filter the feed items newer than the last check; when none are new,
only the last-check time is updated; when some are new, the queued records
are built and `savePendingEpisodes(queuedEpisodes)` OVERWRITES the pending
file with exactly those records.  Returns the queued episodes and the new
persisted state. -/
def checkForNewEpisodes (feed : List RSSEpisode) (now : Int) (st : MonitorState) :
    List EpisodeProcessing × MonitorState :=
  let newEpisodes := feed.filter (fun episode => st.lastCheck < episode.pubDate)
  if newEpisodes.isEmpty then
    ([], { st with lastCheck := now })
  else
    let queuedEpisodes := queueEpisodesForProcessing newEpisodes now
    (queuedEpisodes, { pendingEpisodes := queuedEpisodes, lastCheck := now })

/-- `RSSMonitor.getReadyEpisodes`: the pending records whose `processAfter`
has elapsed. -/
def getReadyEpisodes (now : Int) (st : MonitorState) : List EpisodeProcessing :=
  st.pendingEpisodes.filter (fun ep => ep.processAfter ≤ now)

/-- `RSSMonitor.markEpisodeProcessed`: drop every record with the id. -/
def markEpisodeProcessed (episodeId : String) (st : MonitorState) : MonitorState :=
  { st with pendingEpisodes :=
      st.pendingEpisodes.filter (fun ep => ep.episode.id != episodeId) }

/-- Two hours in milliseconds. -/
def twoHoursMs : Int := 2 * 60 * 60 * 1000

/-- The per-record decision of `RSSMonitor.requeueEpisode` on the found
record: increment `retryCount` and record `hasGoogleDoc`; then `none` means
the record is removed (`splice`) — interview fast-abandon at 2 retries
without a doc, or the generic 3-retry ceiling — and `some` is the kept
record with `processAfter` pushed two hours out. -/
def requeueStep (epRec : EpisodeProcessing) (hasGoogleDoc : Bool) (now : Int) :
    Option EpisodeProcessing :=
  let episode := { epRec with retryCount := epRec.retryCount + 1,
                              hasGoogleDoc := some hasGoogleDoc }
  if !hasGoogleDoc && episode.episodeType == some EpisodeType.interview &&
      2 ≤ episode.retryCount then
    none
  else if 3 ≤ episode.retryCount then
    none
  else
    some { episode with processAfter := now + twoHoursMs }

/-- The queue-list core of `RSSMonitor.requeueEpisode`: find the first
record with the id (`findIndex`; no match leaves the queue untouched), and
apply `requeueStep` to it in place — removal is the source's `splice`,
keeping is the source's in-place field mutation. -/
def requeueList (q : List EpisodeProcessing) (episodeId : String)
    (hasGoogleDoc : Bool) (now : Int) : List EpisodeProcessing :=
  match q.findIdx? (fun ep => ep.episode.id == episodeId) with
  | none => q
  | some episodeIndex =>
    match q[episodeIndex]? with
    | none => q
    | some epRec =>
      match requeueStep epRec hasGoogleDoc now with
      | none => q.eraseIdx episodeIndex
      | some newRec => q.set episodeIndex newRec

/-- `RSSMonitor.requeueEpisode` acting on the persisted state. -/
def requeueEpisode (episodeId : String) (hasGoogleDoc : Bool) (now : Int)
    (st : MonitorState) : MonitorState :=
  { st with pendingEpisodes := requeueList st.pendingEpisodes episodeId hasGoogleDoc now }

/-- The orchestrator's dedup by episode id (`OptimizedScraper.run`, the
`Map`-based loop): keep the first occurrence of each id, in order. -/
def dedupGo (seen : List String) : List EpisodeProcessing → List EpisodeProcessing
  | [] => []
  | ep :: rest =>
    if seen.contains ep.episode.id then dedupGo seen rest
    else ep :: dedupGo (ep.episode.id :: seen) rest

/-- Entry point of the id-dedup. -/
def dedupById (l : List EpisodeProcessing) : List EpisodeProcessing := dedupGo [] l

/-- Phases 1–2 of `OptimizedScraper.run`: check the feed, then read the
ready episodes back from the (possibly overwritten) queue, then dedup
`[...newEpisodes, ...readyEpisodes]` by id.  Returns the episodes that will
be processed and the state after phase 1. -/
def runConsidered (feed : List RSSEpisode) (now : Int) (st : MonitorState) :
    List EpisodeProcessing × MonitorState :=
  let (newEpisodes, st1) := checkForNewEpisodes feed now st
  let readyEpisodes := getReadyEpisodes now st1
  (dedupById (newEpisodes ++ readyEpisodes), st1)

/-- Phases 1–3 of `OptimizedScraper.run` as far as the queue is concerned:
for each considered episode, a successful extraction (`booksFound`) marks it
processed, otherwise it is requeued with `hasGoogleDoc = false`.  Returns
the considered episodes and the final persisted state. -/
def runModel (feed : List RSSEpisode) (now : Int) (st : MonitorState)
    (booksFound : String → Bool) : List EpisodeProcessing × MonitorState :=
  let (allEpisodesToProcess, st1) := runConsidered feed now st
  (allEpisodesToProcess,
   allEpisodesToProcess.foldl
     (fun s ep =>
       if booksFound ep.episode.id then markEpisodeProcessed ep.episode.id s
       else requeueEpisode ep.episode.id false now s)
     st1)

/-- `Book` from `optimized-scraper.ts` (the `episodeRef` sub-object is
flattened into the three `ep`-prefixed fields). -/
structure Book where
  id : String
  title : String
  author : String
  coverUrl : String
  amazonUrl : String
  category : String
  epName : String
  epSeasonNumber : Nat
  epEpisodeNumber : Nat
  addedAt : String
deriving DecidableEq, Repr

/-- `OptimizedScraper.validateBook`: the data-quality gate. -/
def validateBook (book : Book) : Bool :=
  if book.title.length < 3 then false
  else if strIncludes book.title "Unknown" || strIncludes book.author "Unknown" then false
  else if ["Dp", "Coca-Cola"].contains book.title then false
  else true

/-- The gate as applied inside `OptimizedScraper.createBookObjects`: of the
assembled candidate `Book` values, only the ones passing `validateBook` are
pushed onto the result (the rejected ones are only `console.log`-ged). -/
def buildBooks (candidates : List Book) : List Book :=
  candidates.filter validateBook

/-- The unknown-metadata notification list computed in
`OptimizedScraper.run` phase 4: of the books that were added, the ones
whose title or author contains `"Unknown"` are sent to
`notifyUnknownMetadata`. -/
def unknownNotified (allNewBooks : List Book) : List Book :=
  allNewBooks.filter
    (fun book => strIncludes book.title "Unknown" || strIncludes book.author "Unknown")

/-- The comparator of `updateBooksDatabase` as a merge-sort order: `a` may
precede `b` iff the JS comparator returns a non-positive number on `(a, b)`
(season descending, then episode descending).  JS `Array.prototype.sort` is
a stable sort. -/
def bookLE (a b : Book) : Bool :=
  if a.epSeasonNumber != b.epSeasonNumber then
    decide (b.epSeasonNumber < a.epSeasonNumber)
  else
    decide (b.epEpisodeNumber ≤ a.epEpisodeNumber)

/-- `OptimizedScraper.updateBooksDatabase`: drop incoming books whose id is
already present, return the catalog unchanged when nothing remains (the
source returns before writing the file), otherwise append and stable-sort. -/
def updateBooksDatabase (existingBooks newBooks : List Book) : List Book :=
  let existingIds := existingBooks.map (fun book => book.id)
  let uniqueNewBooks := newBooks.filter (fun book => !existingIds.contains book.id)
  if uniqueNewBooks.isEmpty then existingBooks
  else (existingBooks ++ uniqueNewBooks).mergeSort bookLE

/-- One record of the bibliographic API's `docs` array, with the fields
`getBookMetadata` reads. -/
structure OLDoc where
  title : String
  author_name : List String
  cover_i : Option Nat
  first_publish_year : Option Nat
  isbn : List String
  key : Option String
  subject : List String
deriving DecidableEq, Repr

/-- `BookMetadata` from `openLibrary.ts`. -/
structure BookMetadata where
  title : String
  author : String
  coverUrl : Option String := none
  firstPublishYear : Option Nat := none
  isbn : Option String := none
  olid : Option String := none
  subjects : List String := []
deriving DecidableEq, Repr

/-- Replace the first occurrence of `pat` (JS `String.replace` with a string
pattern), on character lists. -/
def replaceFirstCL (pat rep : List Char) : List Char → List Char
  | [] => []
  | c :: t =>
    if pat.isPrefixOf (c :: t) then rep ++ (c :: t).drop pat.length
    else c :: replaceFirstCL pat rep t

/-- Replace the first occurrence of `pat` by `rep` in `s`. -/
def replaceFirstStr (s pat rep : String) : String :=
  ⟨replaceFirstCL pat.data rep.data s.data⟩

/-- The environment of `getBookMetadata`: the text-processing of the input
URL (`extractBookInfo`'s ASIN regex and URL-derived title, and the inline
`searchTerms` cleanup, `openLibrary.ts` lines 310 and 348–354) and the
network responses.  Each search field returns `some docs` for an OK JSON
response (`response.ok` with a parsed `docs` array) and `none` for a non-OK
response; `amazonCover` is the result of `getAmazonBookCover`'s CDN probes
(`some url` when a HEAD probe found an image, `none` otherwise). -/
structure OLEnv where
  extractAsin : String → Option String
  extractTitle : String → Option String
  searchTerms : String → Option String
  asinSearch : String → Option (List OLDoc)
  titleSearch : String → Option (List OLDoc)
  generalSearch : String → Option (List OLDoc)
  amazonCover : String → Option String

/-- Steps 1–3 of `getBookMetadata`: the value of the `bookData` variable
after the ASIN search, the exact-title search and the general search have
run in order (each later step only runs while `bookData` is still null). -/
def searchBookData (env : OLEnv) (amazonUrl : String) : Option OLDoc :=
  let bd1 : Option OLDoc :=
    match env.extractAsin amazonUrl with
    | some asin =>
      match env.asinSearch asin with
      | some docs => docs.head?
      | none => none
    | none => none
  let bd2 : Option OLDoc :=
    match bd1 with
    | some d => some d
    | none =>
      match env.extractTitle amazonUrl with
      | some title =>
        match env.titleSearch title with
        | some docs =>
          docs.find? (fun doc => toLowerStr doc.title == toLowerStr title)
        | none => none
      | none => none
  match bd2 with
  | some d => some d
  | none =>
    match env.searchTerms amazonUrl with
    | some searchTerms =>
      match env.generalSearch searchTerms with
      | some docs => docs.head?
      | none => none
    | none => none

/-- The metadata object built from a bibliographic API record
(`openLibrary.ts` lines 369–398), including the cover chain: the API cover
id when present and non-zero (`cover_i` is tested for JS truthiness),
otherwise the marketplace CDN probe, otherwise the placeholder. -/
def apiMetadata (env : OLEnv) (amazonUrl : String) (bookData : OLDoc) : BookMetadata :=
  let olCover : Option String :=
    match bookData.cover_i with
    | some i =>
      if i == 0 then none
      else some ("https://covers.openlibrary.org/b/id/" ++ toString i ++ "-L.jpg")
    | none => none
  let coverUrl : Option String :=
    match olCover with
    | some c => some c
    | none => env.amazonCover amazonUrl
  { title := if bookData.title == "" then "Unknown Title" else bookData.title,
    author :=
      match bookData.author_name.head? with
      | some a => if a == "" then "Unknown Author" else a
      | none => "Unknown Author",
    coverUrl :=
      some (match coverUrl with
            | some c => if c == "" then "/covers/default-book.jpg" else c
            | none => "/covers/default-book.jpg"),
    firstPublishYear := bookData.first_publish_year,
    isbn := bookData.isbn.head?,
    olid := bookData.key.map (fun k => replaceFirstStr k "/works/" ""),
    subjects := bookData.subject }

/-- The lower-tier fallback of `getBookMetadata` (lines 401–424): metadata
assembled from the URL-derived title, the `'Unknown Author'` sentinel and
the CDN cover probe, produced only when the probe or the URL title is
truthy, otherwise `none`. -/
def fallbackMetadata (env : OLEnv) (amazonUrl : String) : Option BookMetadata :=
  let bookInfoTitle := env.extractTitle amazonUrl
  let amazonCover := env.amazonCover amazonUrl
  if optStrTruthy amazonCover || optStrTruthy bookInfoTitle then
    some
      { title :=
          match bookInfoTitle with
          | some t => if t == "" then "Unknown Title" else t
          | none => "Unknown Title",
        author := "Unknown Author",
        coverUrl :=
          some (match amazonCover with
                | some c => if c == "" then "/covers/default-book.jpg" else c
                | none => "/covers/default-book.jpg"),
        firstPublishYear := none, isbn := none, olid := none, subjects := [] }
  else none

/-- `getBookMetadata` (`openLibrary.ts` lines 308–429): the tiered search
for an API record followed by either the API-built metadata or the
lower-tier fallback. -/
def getBookMetadata (env : OLEnv) (amazonUrl : String) : Option BookMetadata :=
  match searchBookData env amazonUrl with
  | some bookData => some (apiMetadata env amazonUrl bookData)
  | none => fallbackMetadata env amazonUrl

/-- Loopback or private-range hostnames as enumerated by claim C5:
`localhost`, the IPv6 loopback, or one of the private/loopback dotted-quad
ranges matched by `isPrivateIP` (10.0.0.0/8, 172.16.0.0/12, 192.168.0.0/16,
127.0.0.0/8). -/
def loopbackOrPrivateHostname (h : String) : Bool :=
  h == "localhost" || h == "::1" || isPrivateIP h

/-- Every loopback/private hostname is caught by `isBlockedDomain`. -/
theorem isBlockedDomain_of_loopbackOrPrivate (h : String)
    (hl : loopbackOrPrivateHostname h = true) : isBlockedDomain h = true := by
  unfold loopbackOrPrivateHostname at hl
  by_cases h1 : h = "localhost"
  · subst h1; decide
  · by_cases h2 : h = "::1"
    · subst h2; decide
    · have hb1 : (h == "localhost") = false := by simp [h1]
      have hb2 : (h == "::1") = false := by simp [h2]
      rw [hb1, hb2] at hl
      simp only [Bool.false_or] at hl
      unfold isBlockedDomain
      simp [hl]

/-- C10: validateUrl is total over input strings; a string the URL parser
rejects never propagates the exception but yields an invalid result whose
error starts with "Invalid URL format:" and carries the parse error
message, with no sanitized URL and no warnings. -/
theorem c10_invalid_format_result
    (parse : String → Except String ParsedUrl) (url msg : String)
    (h : parse url = Except.error msg) :
    validateUrl parse url =
      { isValid := false, sanitizedUrl := none,
        error := some ("Invalid URL format: " ++ msg), warnings := [] } := by
  unfold validateUrl
  rw [h]

/-- A parse function that always throws, for the C10 witness. -/
def parseAlwaysFails : String → Except String ParsedUrl :=
  fun _ => Except.error "Unknown error"

/-- Witness for C10 at the concrete unparseable input "not a url". -/
theorem c10_invalid_format_result_witness :
    parseAlwaysFails "not a url" = Except.error "Unknown error" ∧
    validateUrl parseAlwaysFails "not a url" =
      { isValid := false, sanitizedUrl := none,
        error := some ("Invalid URL format: Unknown error"), warnings := [] } :=
  ⟨rfl, c10_invalid_format_result parseAlwaysFails "not a url" "Unknown error" rfl⟩

/-- C5: any URL whose (lowercased) parsed hostname is a loopback address or
a private-range IP is rejected by validateUrl; moreover whenever the
protocol check passes, the reported error is the blocked-domain error — the
blocklist check fires before the allowlist check is ever consulted. -/
theorem c5_loopback_private_blocked
    (parse : String → Except String ParsedUrl) (url : String) (u : ParsedUrl)
    (hp : parse url = Except.ok u)
    (hh : loopbackOrPrivateHostname (toLowerStr u.hostname) = true) :
    (validateUrl parse url).isValid = false ∧
    (ALLOWED_PROTOCOLS.contains u.protocol = true →
      (validateUrl parse url).error =
        some ("Domain is blocked: " ++ toLowerStr u.hostname)) := by
  have hb : isBlockedDomain (toLowerStr u.hostname) = true :=
    isBlockedDomain_of_loopbackOrPrivate _ hh
  unfold validateUrl
  rw [hp]
  by_cases hproto : ALLOWED_PROTOCOLS.contains u.protocol
  · simp at hproto
    simp [hproto, hb]
  · simp at hproto
    simp [hproto]

/-- A parse function returning a fixed private-range host, for the C5
witness. -/
def parsePrivateHost : String → Except String ParsedUrl :=
  fun _ => Except.ok
    { protocol := "http:", hostname := "10.0.0.1", port := none,
      pathname := "/", search := "", searchParams := [], hash := "" }

/-- Witness for C5 at the concrete private-range host 10.0.0.1 (whose
hostname would not match the allowlist, and the protocol is allowed, so the
blocked-domain error shows the blocklist decided first). -/
theorem c5_loopback_private_blocked_witness :
    loopbackOrPrivateHostname (toLowerStr "10.0.0.1") = true ∧
    (validateUrl parsePrivateHost "http://10.0.0.1/" ).isValid = false ∧
    (validateUrl parsePrivateHost "http://10.0.0.1/" ).error =
      some ("Domain is blocked: " ++ toLowerStr "10.0.0.1") := by
  refine ⟨by decide, ?_⟩
  have h := c5_loopback_private_blocked parsePrivateHost "http://10.0.0.1/"
    { protocol := "http:", hostname := "10.0.0.1", port := none,
      pathname := "/", search := "", searchParams := [], hash := "" }
    rfl (by decide)
  exact ⟨h.1, h.2 (by decide)⟩

/-- C6: whenever validateUrl rejects the input, safeFetch returns the
thrown "URL validation failed" error carrying the validation failure
reason, and the list of URLs handed to fetch is empty — no network request
is issued. -/
theorem c6_safeFetch_fails_closed {ρ : Type}
    (parse : String → Except String ParsedUrl) (fetchFn : ParsedUrl → ρ)
    (url : String) (h : (validateUrl parse url).isValid = false) :
    safeFetch parse fetchFn url =
      (Except.error ("URL validation failed: " ++
        (validateUrl parse url).error.getD "undefined"), []) := by
  unfold safeFetch
  simp [h]

/-- Witness for C6 at a concrete invalid URL (unparseable input, so
validation fails with the format error; no fetch happens). -/
theorem c6_safeFetch_fails_closed_witness :
    (validateUrl parseAlwaysFails "http://localhost/x").isValid = false ∧
    safeFetch parseAlwaysFails (fun _ => (0 : Nat)) "http://localhost/x" =
      (Except.error "URL validation failed: Invalid URL format: Unknown error", []) :=
  ⟨rfl,
   (c6_safeFetch_fails_closed parseAlwaysFails (fun _ => (0 : Nat))
     "http://localhost/x" rfl).trans (by rfl)⟩


/-- A concrete catalog entry for the merge counterexample. -/
def bookAlpha : Book :=
  { id := "B000000001", title := "Alpha", author := "Ann Author",
    coverUrl := "/covers/a.jpg", amazonUrl := "https://www.amazon.com/dp/B000000001",
    category := "Business", epName := "Acme Corp", epSeasonNumber := 2025,
    epEpisodeNumber := 1, addedAt := "2025-01-01" }

/-- A different entry sharing the id of `bookAlpha`. -/
def bookBeta : Book := { bookAlpha with title := "Beta" }

/-- Membership in an id list implies a true `contains` test (the bridge
between the JS `Set.has` / `Array.includes` tests and list membership). -/
theorem contains_eq_true_of_mem {l : List String} {a : String} (h : a ∈ l) :
    l.contains a = true :=
  List.elem_iff.mpr h

/-- Counterexample to C1: two entries of the same incoming batch that share
an id not yet committed are BOTH written — the merge deduplicates only
against already-committed ids, never within the batch — so the written
catalog carries the id twice and its ids are not pairwise distinct. -/
theorem c1_counterexample :
    ((updateBooksDatabase [] [bookAlpha, bookBeta]).map (fun b => b.id)).count
      "B000000001" = 2 ∧
    ¬ ((updateBooksDatabase [] [bookAlpha, bookBeta]).map (fun b => b.id)).Nodup := by
  have h1 : updateBooksDatabase [] [bookAlpha, bookBeta] =
      ([] ++ [bookAlpha, bookBeta]).mergeSort bookLE := by
    simp [updateBooksDatabase]
  have hperm : (updateBooksDatabase [] [bookAlpha, bookBeta]).Perm
      [bookAlpha, bookBeta] := by
    rw [h1]
    simpa using List.mergeSort_perm ([] ++ [bookAlpha, bookBeta]) bookLE
  have hpm := hperm.map (fun b => b.id)
  constructor
  · rw [hpm.count_eq "B000000001"]
    decide
  · intro hn
    have h2 := (hpm.nodup_iff).mp hn
    revert h2
    decide

/-- C1 as amended: provided the committed catalog's ids are unique and the
incoming batch's ids are pairwise distinct, the merge keeps every committed
entry unchanged, drops exactly the incoming entries whose id is already
committed, and the written catalog has no duplicate ids.  (Without the
pairwise-distinct hypothesis on the batch the uniqueness invariant fails:
see the counterexample.) -/
theorem c1_amended (existingBooks newBooks : List Book)
    (hex : (existingBooks.map (fun b => b.id)).Nodup)
    (hnew : (newBooks.map (fun b => b.id)).Nodup) :
    (updateBooksDatabase existingBooks newBooks).Perm
      (existingBooks ++ newBooks.filter
        (fun b => !(existingBooks.map (fun bk => bk.id)).contains b.id)) ∧
    ((updateBooksDatabase existingBooks newBooks).map (fun b => b.id)).Nodup := by
  have hdef : updateBooksDatabase existingBooks newBooks =
      if (newBooks.filter
            (fun b => !(existingBooks.map (fun bk => bk.id)).contains b.id)).isEmpty
      then existingBooks
      else (existingBooks ++ newBooks.filter
            (fun b => !(existingBooks.map (fun bk => bk.id)).contains b.id)).mergeSort
            bookLE := rfl
  have hperm : (updateBooksDatabase existingBooks newBooks).Perm
      (existingBooks ++ newBooks.filter
        (fun b => !(existingBooks.map (fun bk => bk.id)).contains b.id)) := by
    rw [hdef]
    by_cases he : (newBooks.filter
        (fun b => !(existingBooks.map (fun bk => bk.id)).contains b.id)).isEmpty
    · rw [List.isEmpty_iff] at he
      rw [he]
      simp
    · simp only [he, if_false]
      exact List.mergeSort_perm _ _
  refine ⟨hperm, ?_⟩
  have hnodup : ((existingBooks ++ newBooks.filter
      (fun b => !(existingBooks.map (fun bk => bk.id)).contains b.id)).map
      (fun b => b.id)).Nodup := by
    rw [List.map_append, List.nodup_append]
    refine ⟨hex, ?_, ?_⟩
    · exact ((List.filter_sublist newBooks).map (fun b => b.id)).nodup hnew
    · rw [List.disjoint_left]
      intro a ha hau
      rw [List.mem_map] at hau
      obtain ⟨b, hbu, hbid⟩ := hau
      rw [List.mem_filter] at hbu
      have hbu2 := hbu.2
      have hmem : b.id ∈ existingBooks.map (fun bk => bk.id) := by
        rw [hbid]
        exact ha
      rw [contains_eq_true_of_mem hmem] at hbu2
      simp at hbu2
  exact ((hperm.map (fun b => b.id)).nodup_iff).mpr hnodup

/-- Witness for the amended C1 at a concrete merge: one committed entry,
one genuinely new entry and one conflicting entry; the conflict is dropped,
the committed entry survives unchanged, and ids stay unique. -/
theorem c1_amended_witness :
    (([bookAlpha].map (fun b => b.id)).Nodup ∧
     ([{ bookAlpha with id := "B000000002", title := "Gamma" }, bookBeta].map
        (fun b => b.id)).Nodup) ∧
    ((updateBooksDatabase [bookAlpha]
        [{ bookAlpha with id := "B000000002", title := "Gamma" }, bookBeta]).Perm
      ([bookAlpha] ++
        [{ bookAlpha with id := "B000000002", title := "Gamma" }, bookBeta].filter
          (fun b => !(([bookAlpha].map (fun bk => bk.id))).contains b.id)) ∧
     ((updateBooksDatabase [bookAlpha]
        [{ bookAlpha with id := "B000000002", title := "Gamma" }, bookBeta]).map
        (fun b => b.id)).Nodup) :=
  ⟨⟨by decide, by decide⟩,
   c1_amended [bookAlpha]
     [{ bookAlpha with id := "B000000002", title := "Gamma" }, bookBeta]
     (by decide) (by decide)⟩

/-- C9: merging a batch whose ids are all already committed leaves the
catalog exactly unchanged (the source returns before writing), so a second
pipeline run over identical inputs adds no entries, introduces no duplicate
ids and performs no reordering. -/
theorem c9_merge_idempotent (existingBooks newBooks : List Book)
    (h : ∀ b ∈ newBooks, b.id ∈ existingBooks.map (fun bk => bk.id)) :
    updateBooksDatabase existingBooks newBooks = existingBooks := by
  have hfil : newBooks.filter
      (fun b => !(existingBooks.map (fun bk => bk.id)).contains b.id) = [] := by
    rw [List.filter_eq_nil_iff]
    intro b hb hcon
    rw [contains_eq_true_of_mem (h b hb)] at hcon
    simp at hcon
  have hdef : updateBooksDatabase existingBooks newBooks =
      if (newBooks.filter
            (fun b => !(existingBooks.map (fun bk => bk.id)).contains b.id)).isEmpty
      then existingBooks
      else (existingBooks ++ newBooks.filter
            (fun b => !(existingBooks.map (fun bk => bk.id)).contains b.id)).mergeSort
            bookLE := rfl
  rw [hdef, hfil]
  simp

/-- Witness for C9: re-merging the batch `[bookAlpha, bookBeta]` (both ids
already committed) returns the committed catalog unchanged. -/
theorem c9_merge_idempotent_witness :
    (∀ b ∈ [bookAlpha, bookBeta], b.id ∈ [bookAlpha].map (fun bk => bk.id)) ∧
    updateBooksDatabase [bookAlpha] [bookAlpha, bookBeta] = [bookAlpha] :=
  ⟨by decide, c9_merge_idempotent [bookAlpha] [bookAlpha, bookBeta] (by decide)⟩

/-- A previously published episode, already sitting in the queue. -/
def oldEp : RSSEpisode :=
  { id := "old-ep", title := "Old Corp", link := "https://www.acquired.fm/episodes/old",
    pubDate := 50, guid := "old-ep", description := "" }

/-- A freshly published episode appearing in the feed. -/
def newEp : RSSEpisode :=
  { id := "new-ep", title := "New Corp", link := "https://www.acquired.fm/episodes/new",
    pubDate := 200, guid := "new-ep", description := "" }

/-- The queued record for `oldEp`, whose `processAfter` has elapsed by time
300. -/
def oldRec : EpisodeProcessing :=
  { episode := oldEp, detectedAt := 50, processAfter := 60, retryCount := 0,
    hasGoogleDoc := none, episodeType := some EpisodeType.regular }

/-- The persisted state before the run: `oldRec` is queued and the last
feed check happened at time 100. -/
def stWithOld : MonitorState := { pendingEpisodes := [oldRec], lastCheck := 100 }

/-- Counterexample to C2: at time 300 the feed delivers the new episode
(pubDate 200 > lastCheck 100) while `oldRec` sits in the queue with its
`processAfter` (60) long elapsed.  The claim says the processing set is the
deduplicated union {new-ep, old-ep} and that queued records survive the
run; in fact `checkForNewEpisodes` overwrites the queue with just the new
record, so only `new-ep` is considered and `old-ep` is gone from the
persisted queue after the run. -/
theorem c2_counterexample :
    ((runModel [newEp] 300 stWithOld (fun _ => false)).1.map
      (fun ep => ep.episode.id) = ["new-ep"]) ∧
    ("old-ep" ∉ (runModel [newEp] 300 stWithOld (fun _ => false)).1.map
      (fun ep => ep.episode.id)) ∧
    ("old-ep" ∉ (runModel [newEp] 300 stWithOld (fun _ => false)).2.pendingEpisodes.map
      (fun ep => ep.episode.id)) := by
  refine ⟨by decide, by decide, by decide⟩

/-- Deduplication ignores a second pass over elements whose ids are already
covered by the seen set or the first pass. -/
theorem dedupGo_append_of_covered (l₂ l₁ : List EpisodeProcessing)
    (seen : List String)
    (h : ∀ e ∈ l₂, e.episode.id ∈ seen ∨
          e.episode.id ∈ l₁.map (fun x => x.episode.id)) :
    dedupGo seen (l₁ ++ l₂) = dedupGo seen l₁ := by
  induction l₁ generalizing seen with
  | nil =>
    simp only [List.nil_append]
    have hseen : ∀ e ∈ l₂, e.episode.id ∈ seen := by
      intro e he
      rcases h e he with hc | hc
      · exact hc
      · simp at hc
    clear h
    induction l₂ generalizing seen with
    | nil => rfl
    | cons e t ih =>
      unfold dedupGo
      rw [contains_eq_true_of_mem (hseen e (by simp))]
      simp only [if_true]
      exact ih seen (fun x hx => hseen x (by simp [hx]))
  | cons a t ih =>
    rw [List.cons_append]
    unfold dedupGo
    by_cases hc : seen.contains a.episode.id
    · rw [hc]
      simp only [if_true]
      apply ih
      intro e he
      rcases h e he with hx | hx
      · exact Or.inl hx
      · rw [List.map_cons, List.mem_cons] at hx
        rcases hx with hx | hx
        · left
          rw [hx]
          exact List.elem_iff.mp hc
        · exact Or.inr hx
    · rw [Bool.not_eq_true] at hc
      rw [hc]
      rw [if_neg (by simp)]
      congr 1
      apply ih
      intro e he
      rcases h e he with hx | hx
      · exact Or.inl (by simp [hx])
      · rw [List.map_cons, List.mem_cons] at hx
        rcases hx with hx | hx
        · exact Or.inl (by simp [hx])
        · exact Or.inr hx

/-- C2 as amended: in a run that detects new feed items, the queue is
overwritten with exactly the newly queued (non-interview) records, and the
set of episodes considered for processing is just those records
deduplicated by id — previously queued records, ready or not, are
discarded rather than merged. -/
theorem c2_amended (feed : List RSSEpisode) (now : Int) (st : MonitorState)
    (h : (feed.filter (fun e => st.lastCheck < e.pubDate)).isEmpty = false) :
    (runConsidered feed now st).1 =
      dedupById (queueEpisodesForProcessing
        (feed.filter (fun e => st.lastCheck < e.pubDate)) now) ∧
    (runConsidered feed now st).2.pendingEpisodes =
      queueEpisodesForProcessing
        (feed.filter (fun e => st.lastCheck < e.pubDate)) now := by
  have hcheck : checkForNewEpisodes feed now st =
      (queueEpisodesForProcessing (feed.filter (fun e => st.lastCheck < e.pubDate)) now,
       { pendingEpisodes :=
           queueEpisodesForProcessing
             (feed.filter (fun e => st.lastCheck < e.pubDate)) now,
         lastCheck := now }) := by
    unfold checkForNewEpisodes
    simp [h]
  constructor
  · show (dedupById ((checkForNewEpisodes feed now st).1 ++
      getReadyEpisodes now (checkForNewEpisodes feed now st).2)) = _
    rw [hcheck]
    unfold dedupById getReadyEpisodes
    apply dedupGo_append_of_covered
    intro e he
    right
    rw [List.mem_filter] at he
    exact List.mem_map_of_mem (fun x => x.episode.id) he.1
  · show (checkForNewEpisodes feed now st).2.pendingEpisodes = _
    rw [hcheck]

/-- Witness for the amended C2 at the concrete state of the
counterexample: the new feed item is detected, the queue ends up holding
exactly its record, and the considered set is its dedup. -/
theorem c2_amended_witness :
    (([newEp].filter (fun e => stWithOld.lastCheck < e.pubDate)).isEmpty = false) ∧
    ((runConsidered [newEp] 300 stWithOld).1 =
      dedupById (queueEpisodesForProcessing
        ([newEp].filter (fun e => stWithOld.lastCheck < e.pubDate)) 300) ∧
     (runConsidered [newEp] 300 stWithOld).2.pendingEpisodes =
      queueEpisodesForProcessing
        ([newEp].filter (fun e => stWithOld.lastCheck < e.pubDate)) 300) :=
  ⟨by decide, c2_amended [newEp] 300 stWithOld (by decide)⟩

/-- Predicate picking the records of a given episode id. -/
def idMatches (episodeId : String) (ep : EpisodeProcessing) : Bool :=
  ep.episode.id == episodeId

/-- A queue with no matching record is left untouched by requeue (the
source logs "not found" and returns). -/
theorem requeueList_of_absent (q : List EpisodeProcessing) (episodeId : String)
    (hasGoogleDoc : Bool) (now : Int)
    (habs : q.filter (idMatches episodeId) = []) :
    requeueList q episodeId hasGoogleDoc now = q := by
  have hf : q.findIdx? (fun ep => ep.episode.id == episodeId) = none := by
    rw [List.findIdx?_eq_none_iff]
    intro x hx
    have hnm := List.filter_eq_nil_iff.mp habs x hx
    cases hb : (x.episode.id == episodeId) with
    | false => rfl
    | true => exact absurd hb hnm
  unfold requeueList
  rw [hf]

/-- Requeue distributes over a head that does not match the id. -/
theorem requeueList_cons_ne (a : EpisodeProcessing) (q : List EpisodeProcessing)
    (episodeId : String) (hasGoogleDoc : Bool) (now : Int)
    (ha : (a.episode.id == episodeId) = false) :
    requeueList (a :: q) episodeId hasGoogleDoc now =
      a :: requeueList q episodeId hasGoogleDoc now := by
  unfold requeueList
  rw [List.findIdx?_cons, ha, if_neg (by simp), List.findIdx?_succ]
  cases hf : q.findIdx? (fun ep => ep.episode.id == episodeId) with
  | none => rfl
  | some j =>
    simp only [Option.map_some']
    rw [List.getElem?_cons_succ]
    cases hg : q[j]? with
    | none => rfl
    | some epRec =>
      cases hs : requeueStep epRec hasGoogleDoc now with
      | none => simp only [hs, List.eraseIdx_cons_succ]
      | some newRec => simp only [hs, List.set_cons_succ]

/-- Requeue on a matching head applies the per-record decision there. -/
theorem requeueList_cons_eq (a : EpisodeProcessing) (q : List EpisodeProcessing)
    (episodeId : String) (hasGoogleDoc : Bool) (now : Int)
    (ha : (a.episode.id == episodeId) = true) :
    requeueList (a :: q) episodeId hasGoogleDoc now =
      match requeueStep a hasGoogleDoc now with
      | none => q
      | some newRec => newRec :: q := by
  unfold requeueList
  rw [List.findIdx?_cons, ha, if_pos rfl]
  cases hs : requeueStep a hasGoogleDoc now with
  | none => simp only [List.getElem?_cons_zero, hs, List.eraseIdx_cons_zero]
  | some newRec => simp only [List.getElem?_cons_zero, hs, List.set_cons_zero]

/-- A kept record carries the same episode as the record it replaces. -/
theorem requeueStep_episode (epRec newRec : EpisodeProcessing)
    (hasGoogleDoc : Bool) (now : Int)
    (hs : requeueStep epRec hasGoogleDoc now = some newRec) :
    newRec.episode = epRec.episode := by
  simp only [requeueStep] at hs
  split at hs
  · exact absurd hs (by simp)
  · split at hs
    · exact absurd hs (by simp)
    · injection hs with h2
      rw [← h2]

/-- Requeue transforms the sub-queue of records with the given id by
applying the per-record decision to its head and leaving the rest as is:
remove the head on abandonment, replace it when kept. -/
theorem requeueList_filter (q : List EpisodeProcessing) (episodeId : String)
    (hasGoogleDoc : Bool) (now : Int) :
    (requeueList q episodeId hasGoogleDoc now).filter (idMatches episodeId) =
      match q.filter (idMatches episodeId) with
      | [] => []
      | epRec :: rest =>
        match requeueStep epRec hasGoogleDoc now with
        | none => rest
        | some newRec => newRec :: rest := by
  induction q with
  | nil => rfl
  | cons a t ih =>
    by_cases ha : (a.episode.id == episodeId) = true
    · rw [requeueList_cons_eq a t episodeId hasGoogleDoc now ha]
      have hfa : (a :: t).filter (idMatches episodeId) =
          a :: t.filter (idMatches episodeId) :=
        List.filter_cons_of_pos ha
      rw [hfa]
      cases hs : requeueStep a hasGoogleDoc now with
      | none => simp only [hs]
      | some newRec =>
        have hep := requeueStep_episode a newRec hasGoogleDoc now hs
        have hm : idMatches episodeId newRec = true := by
          unfold idMatches
          rw [hep]
          exact ha
        simp only [hs]
        exact List.filter_cons_of_pos hm
    · have ha' : (a.episode.id == episodeId) = false := by
        rwa [Bool.not_eq_true] at ha
      have hna : ¬ idMatches episodeId a = true := ha
      rw [requeueList_cons_ne a t episodeId hasGoogleDoc now ha']
      rw [List.filter_cons_of_neg hna, List.filter_cons_of_neg hna]
      exact ih

/-- One requeue pass never lengthens the queue. -/
theorem requeueList_length_le (q : List EpisodeProcessing) (episodeId : String)
    (hasGoogleDoc : Bool) (now : Int) :
    (requeueList q episodeId hasGoogleDoc now).length ≤ q.length := by
  induction q with
  | nil => simp [requeueList]
  | cons a t ih =>
    by_cases ha : (a.episode.id == episodeId) = true
    · rw [requeueList_cons_eq a t episodeId hasGoogleDoc now ha]
      cases hs : requeueStep a hasGoogleDoc now with
      | none =>
        simp only [List.length_cons]
        omega
      | some newRec =>
        simp only [List.length_cons]
        omega
    · have ha' : (a.episode.id == episodeId) = false := by
        rwa [Bool.not_eq_true] at ha
      rw [requeueList_cons_ne a t episodeId hasGoogleDoc now ha']
      simp only [List.length_cons]
      omega

/-- The shape of a record kept after a failed requeue (retryCount set,
`hasGoogleDoc := false` recorded, processAfter pushed two hours past the
requeue time). -/
def failBump (rec : EpisodeProcessing) (n : Nat) (t : Int) : EpisodeProcessing :=
  { rec with retryCount := n, hasGoogleDoc := some false, processAfter := t + twoHoursMs }

/-- C3: a record that keeps failing (every failure reported through requeue
with no source document found) is out of the queue after at most 3 requeue
cycles; while it lives its retryCount never exceeds 3; once gone, further
requeue calls are no-ops (it is never re-enqueued); and the queue never
grows across requeues. -/
theorem c3_queue_termination (q : List EpisodeProcessing) (episodeId : String)
    (rec : EpisodeProcessing) (t1 t2 t3 t4 : Int) (hdoc : Bool)
    (hq : q.filter (idMatches episodeId) = [rec])
    (hrc : rec.retryCount = 0) :
    ((requeueList (requeueList (requeueList q episodeId false t1) episodeId false t2)
        episodeId false t3).filter (idMatches episodeId) = [] ∧
     requeueList (requeueList (requeueList (requeueList q episodeId false t1)
        episodeId false t2) episodeId false t3) episodeId hdoc t4 =
       requeueList (requeueList (requeueList q episodeId false t1) episodeId false t2)
        episodeId false t3) ∧
    ((∀ r ∈ requeueList q episodeId false t1,
        idMatches episodeId r = true → r.retryCount ≤ 3) ∧
     (∀ r ∈ requeueList (requeueList q episodeId false t1) episodeId false t2,
        idMatches episodeId r = true → r.retryCount ≤ 3) ∧
     (∀ r ∈ requeueList (requeueList (requeueList q episodeId false t1) episodeId false t2)
        episodeId false t3,
        idMatches episodeId r = true → r.retryCount ≤ 3)) ∧
    (requeueList (requeueList (requeueList q episodeId false t1) episodeId false t2)
        episodeId false t3).length ≤ q.length := by
  have hs1 : requeueStep rec false t1 = some (failBump rec 1 t1) := by
    simp [requeueStep, failBump, hrc]
  have hf1 : (requeueList q episodeId false t1).filter (idMatches episodeId) =
      [failBump rec 1 t1] := by
    rw [requeueList_filter, hq]
    simp only [hs1]
  have hlen : (requeueList (requeueList (requeueList q episodeId false t1)
      episodeId false t2) episodeId false t3).length ≤ q.length :=
    le_trans (requeueList_length_le _ _ _ _)
      (le_trans (requeueList_length_le _ _ _ _) (requeueList_length_le _ _ _ _))
  have hbound1 : ∀ r ∈ requeueList q episodeId false t1,
      idMatches episodeId r = true → r.retryCount ≤ 3 := by
    intro r hr hm
    have hrf : r ∈ (requeueList q episodeId false t1).filter (idMatches episodeId) :=
      List.mem_filter.mpr ⟨hr, hm⟩
    rw [hf1] at hrf
    have hre : r = failBump rec 1 t1 := by simpa using hrf
    rw [hre]
    simp [failBump]
  by_cases hty : (rec.episodeType == some EpisodeType.interview) = true
  · have hs2 : requeueStep (failBump rec 1 t1) false t2 = none := by
      simp [requeueStep, failBump, hty]
    have hf2 : (requeueList (requeueList q episodeId false t1) episodeId false t2).filter
        (idMatches episodeId) = [] := by
      rw [requeueList_filter, hf1]
      simp only [hs2]
    have hf3 : (requeueList (requeueList (requeueList q episodeId false t1)
        episodeId false t2) episodeId false t3).filter (idMatches episodeId) = [] := by
      rw [requeueList_filter, hf2]
    refine ⟨⟨hf3, requeueList_of_absent _ episodeId hdoc t4 hf3⟩,
      ⟨hbound1, ?_, ?_⟩, hlen⟩
    · intro r hr hm
      have hrf : r ∈ (requeueList (requeueList q episodeId false t1) episodeId
          false t2).filter (idMatches episodeId) :=
        List.mem_filter.mpr ⟨hr, hm⟩
      rw [hf2] at hrf
      exact absurd hrf (List.not_mem_nil r)
    · intro r hr hm
      have hrf : r ∈ (requeueList (requeueList (requeueList q episodeId false t1)
          episodeId false t2) episodeId false t3).filter (idMatches episodeId) :=
        List.mem_filter.mpr ⟨hr, hm⟩
      rw [hf3] at hrf
      exact absurd hrf (List.not_mem_nil r)
  · have hty' : (rec.episodeType == some EpisodeType.interview) = false := by
      rwa [Bool.not_eq_true] at hty
    have hs2 : requeueStep (failBump rec 1 t1) false t2 =
        some (failBump rec 2 t2) := by
      simp [requeueStep, failBump, hty']
    have hf2 : (requeueList (requeueList q episodeId false t1) episodeId false t2).filter
        (idMatches episodeId) = [failBump rec 2 t2] := by
      rw [requeueList_filter, hf1]
      simp only [hs2]
    have hs3 : requeueStep (failBump rec 2 t2) false t3 = none := by
      simp [requeueStep, failBump, hty']
    have hf3 : (requeueList (requeueList (requeueList q episodeId false t1)
        episodeId false t2) episodeId false t3).filter (idMatches episodeId) = [] := by
      rw [requeueList_filter, hf2]
      simp only [hs3]
    refine ⟨⟨hf3, requeueList_of_absent _ episodeId hdoc t4 hf3⟩,
      ⟨hbound1, ?_, ?_⟩, hlen⟩
    · intro r hr hm
      have hrf : r ∈ (requeueList (requeueList q episodeId false t1) episodeId
          false t2).filter (idMatches episodeId) :=
        List.mem_filter.mpr ⟨hr, hm⟩
      rw [hf2] at hrf
      have hre : r = failBump rec 2 t2 := by simpa using hrf
      rw [hre]
      simp [failBump]
    · intro r hr hm
      have hrf : r ∈ (requeueList (requeueList (requeueList q episodeId false t1)
          episodeId false t2) episodeId false t3).filter (idMatches episodeId) :=
        List.mem_filter.mpr ⟨hr, hm⟩
      rw [hf3] at hrf
      exact absurd hrf (List.not_mem_nil r)

/-- Witness for C3 at a concrete queue holding one fresh regular record:
three failing requeues empty it, retry counts stay bounded, a fourth
requeue is a no-op, and the queue never grew. -/
theorem c3_queue_termination_witness :
    ([oldRec].filter (idMatches "old-ep") = [oldRec] ∧ oldRec.retryCount = 0) ∧
    (((requeueList (requeueList (requeueList [oldRec] "old-ep" false 100) "old-ep"
        false 200) "old-ep" false 300).filter (idMatches "old-ep") = [] ∧
      requeueList (requeueList (requeueList (requeueList [oldRec] "old-ep" false 100)
        "old-ep" false 200) "old-ep" false 300) "old-ep" true 400 =
        requeueList (requeueList (requeueList [oldRec] "old-ep" false 100) "old-ep"
          false 200) "old-ep" false 300) ∧
     ((∀ r ∈ requeueList [oldRec] "old-ep" false 100,
         idMatches "old-ep" r = true → r.retryCount ≤ 3) ∧
      (∀ r ∈ requeueList (requeueList [oldRec] "old-ep" false 100) "old-ep" false 200,
         idMatches "old-ep" r = true → r.retryCount ≤ 3) ∧
      (∀ r ∈ requeueList (requeueList (requeueList [oldRec] "old-ep" false 100)
          "old-ep" false 200) "old-ep" false 300,
         idMatches "old-ep" r = true → r.retryCount ≤ 3)) ∧
     (requeueList (requeueList (requeueList [oldRec] "old-ep" false 100) "old-ep"
        false 200) "old-ep" false 300).length ≤ ([oldRec] : List EpisodeProcessing).length) :=
  ⟨⟨by decide, by decide⟩,
   c3_queue_termination [oldRec] "old-ep" oldRec 100 200 300 400 true
     (by decide) (by decide)⟩

/-- The feed item of the C4 scenario. -/
def janeEp : RSSEpisode :=
  { id := "jane-1", title := "A Conversation with Jane Doe",
    link := "https://www.acquired.fm/episodes/jane", pubDate := 10,
    guid := "jane-1", description := "" }

/-- The empty persisted state before the first run that observes
`janeEp`. -/
def emptyMonitorState : MonitorState := { pendingEpisodes := [], lastCheck := 0 }

/-- Counterexample to C4: the enqueue-time classifier only looks for the
substring "interview", so "A Conversation with Jane Doe" is classified
regular, and after the first run that observes it (and fails to extract
books from it) the persisted queue still holds a record for it. -/
theorem c4_counterexample :
    classifyEpisode "A Conversation with Jane Doe" = EpisodeType.regular ∧
    (runModel [janeEp] 100 emptyMonitorState (fun _ => false)).2.pendingEpisodes.map
      (fun ep => ep.episode.id) = ["jane-1"] := by
  constructor
  · decide
  · decide

/-- C4 as amended: the records produced at enqueue time never include an
episode classified as an interview — a title containing "interview"
(case-insensitively) is dropped before the queue is written.  (A title with
no interview keyword, such as "A Conversation with Jane Doe", is classified
regular and IS enqueued: see the counterexample.) -/
theorem c4_amended (episodes : List RSSEpisode) (now : Int)
    (rec : EpisodeProcessing)
    (h : rec ∈ queueEpisodesForProcessing episodes now) :
    ¬ classifyEpisode rec.episode.title = EpisodeType.interview := by
  unfold queueEpisodesForProcessing at h
  rw [List.mem_filterMap] at h
  obtain ⟨ep, hep, hsome⟩ := h
  by_cases hc : (classifyEpisode ep.title == EpisodeType.interview) = true
  · exact absurd hsome (by simp [hc])
  · rw [Bool.not_eq_true] at hc
    simp only [hc, Bool.false_eq_true, if_false, Option.some.injEq] at hsome
    intro hcl
    rw [← hsome] at hcl
    have hcl' : classifyEpisode ep.title = EpisodeType.interview := hcl
    rw [hcl'] at hc
    simp at hc

/-- Witness for the amended C4: the record queued for a concrete feed
containing both an interview-titled item and `janeEp` is never
interview-classified. -/
theorem c4_amended_witness :
    ((queueEpisodesForProcessing
      [{ janeEp with id := "iv-1", title := "The Jane Doe Interview" }, janeEp] 100).map
        (fun rec => rec.episode.id) = ["jane-1"]) ∧
    (∀ rec ∈ queueEpisodesForProcessing
      [{ janeEp with id := "iv-1", title := "The Jane Doe Interview" }, janeEp] 100,
      ¬ classifyEpisode rec.episode.title = EpisodeType.interview) :=
  ⟨by decide,
   fun rec hrec =>
     c4_amended [{ janeEp with id := "iv-1", title := "The Jane Doe Interview" }, janeEp]
       100 rec hrec⟩

/-- C7: whenever the tiered bibliographic-API search (product identifier,
then exact title, then general search) yields a record, the resolver
returns metadata built from that API record; the lower-tier URL-derived
fallback (URL-parsed title, 'Unknown Author', CDN-probed cover) is returned
only when every API search step produced nothing. -/
theorem c7_fallback_ordering (env : OLEnv) (amazonUrl : String) :
    (∀ doc, searchBookData env amazonUrl = some doc →
      getBookMetadata env amazonUrl = some (apiMetadata env amazonUrl doc)) ∧
    (searchBookData env amazonUrl = none →
      getBookMetadata env amazonUrl = fallbackMetadata env amazonUrl) := by
  constructor
  · intro doc hdoc
    unfold getBookMetadata
    rw [hdoc]
  · intro hnone
    unfold getBookMetadata
    rw [hnone]

/-- A concrete bibliographic API record. -/
def olDocSample : OLDoc :=
  { title := "The Innovators", author_name := ["Walter Isaacson"],
    cover_i := some 12345, first_publish_year := some 2014,
    isbn := ["9781476708690"], key := some "/works/WK1",
    subject := ["Technology"] }

/-- A concrete resolver environment whose identifier search hits
`olDocSample`. -/
def olEnvSample : OLEnv :=
  { extractAsin := fun _ => some "1476708690",
    extractTitle := fun _ => some "The Innovators",
    searchTerms := fun _ => some "The Innovators",
    asinSearch := fun _ => some [olDocSample],
    titleSearch := fun _ => none,
    generalSearch := fun _ => none,
    amazonCover := fun _ => none }

/-- Witness for C7: with a concrete identifier-search hit, the resolver
returns the API-built metadata, not the fallback. -/
theorem c7_fallback_ordering_witness :
    searchBookData olEnvSample "https://www.amazon.com/dp/1476708690" =
      some olDocSample ∧
    getBookMetadata olEnvSample "https://www.amazon.com/dp/1476708690" =
      some (apiMetadata olEnvSample "https://www.amazon.com/dp/1476708690" olDocSample) :=
  ⟨rfl,
   (c7_fallback_ordering olEnvSample "https://www.amazon.com/dp/1476708690").1
     olDocSample rfl⟩

/-- A resolved entry carrying the Unknown sentinel, rejected by the
data-quality gate. -/
def unknownBook : Book := { bookAlpha with id := "B000000009", title := "Unknown Title" }

/-- Counterexample to C8: a rejected entry (Unknown sentinel) is excluded
from the catalog, but the run's unknown-metadata notification list —
computed from the books that PASSED validation — is empty, so the entry is
never surfaced through the notification channel; it is only logged. -/
theorem c8_counterexample :
    validateBook unknownBook = false ∧
    unknownBook ∉ buildBooks [unknownBook, bookAlpha] ∧
    unknownNotified (buildBooks [unknownBook, bookAlpha]) = [] := by
  refine ⟨by decide, by decide, by decide⟩

/-- C8 as amended: every resolved entry rejected by the data-quality gate
is excluded from the catalog, and it is NOT surfaced through the run's
notification channel: the unknown-metadata notification inspects only
entries that passed validation, and validation rejects every
Unknown-sentinel entry, so that notification list is always empty. -/
theorem c8_amended (candidates : List Book) (b : Book)
    (hb : b ∈ candidates) (hv : validateBook b = false) :
    b ∉ buildBooks candidates ∧
    unknownNotified (buildBooks candidates) = [] := by
  constructor
  · intro hmem
    unfold buildBooks at hmem
    rw [List.mem_filter] at hmem
    rw [hv] at hmem
    exact absurd hmem.2 (by simp)
  · unfold unknownNotified buildBooks
    rw [List.filter_eq_nil_iff]
    intro x hx
    rw [List.mem_filter] at hx
    have hvx := hx.2
    intro hvu
    unfold validateBook at hvx
    simp [hvu] at hvx

/-- Witness for the amended C8 at the concrete rejected entry. -/
theorem c8_amended_witness :
    (unknownBook ∈ [unknownBook, bookAlpha] ∧ validateBook unknownBook = false) ∧
    (unknownBook ∉ buildBooks [unknownBook, bookAlpha] ∧
     unknownNotified (buildBooks [unknownBook, bookAlpha]) = []) :=
  ⟨⟨by decide, by decide⟩,
   c8_amended [unknownBook, bookAlpha] unknownBook (by decide) (by decide)⟩
